import Mathlib

/-!
A verification development for the render-thread execution engine of the
qmcloud/engine graphics repository: the command-queue device model
(gfx/gl2/device.go), the render-to-texture canvas (gfx/gl2/rtt.go), the
resource manager, the occlusion-query tracker, the pre-draw validation step
(util package) and the GLFW window property reconciliation (window package).

Go source constructs are shallowly embedded: each Go function relevant to a
claim becomes a Lean function over explicit state, native graphics calls are
recorded as events in a trace, machine integers become Nat or Int, and
channels become explicit lists (the buffered contents of the channel).
-/

/-! ## Basic geometry: image.Rectangle and gfx.Color -/

/-- Embedding of image.Rectangle: min and max corners. -/
structure Rect where
  minX : Int
  minY : Int
  maxX : Int
  maxY : Int
deriving DecidableEq

/-- Embedding of image.Rectangle.Empty: a rectangle is empty when it contains
no points, that is when MinX >= MaxX or MinY >= MaxY. -/
def Rect.empty (r : Rect) : Bool :=
  r.minX ≥ r.maxX || r.minY ≥ r.maxY

/-- Embedding of gfx.Color (component values are opaque here; the claims do
not depend on color arithmetic). -/
structure Color where
  r : Int
  g : Int
  b : Int
  a : Int
deriving DecidableEq

/-! ## Resource manager (rsrcManager in gfx/gl2/device.go and gfx/gl2/rtt.go)

The manager keeps five per-kind lists of resources pending deletion. A
reclamation pass emits a trace of events: mutex lock and unlock, the native
deletion calls, and command-stream flushes. Mesh and shader entries are
identified by an opaque Nat; texture, framebuffer and renderbuffer entries
are the numeric GL handles held in the Go slices. -/

/-- The five kinds of pending resources, in the order freePending visits
them. -/
inductive RsrcKind where
  | mesh
  | shader
  | texture
  | fbo
  | renderbuffer
deriving DecidableEq

/-- Events emitted during a reclamation pass. freeMesh and freeShader record
the per-object native free calls; deleteTextures, deleteFramebuffers and
deleteRenderbuffers record one batched native deletion call whose argument
list is all handles passed in that single call. -/
inductive RsrcEvent where
  | lock
  | unlock
  | freeMesh (id : Nat)
  | freeShader (id : Nat)
  | deleteTextures (hs : List Nat)
  | deleteFramebuffers (hs : List Nat)
  | deleteRenderbuffers (hs : List Nat)
  | flush
deriving DecidableEq

/-- Embedding of rsrcManager: the five pending lists. -/
structure RsrcManager where
  meshes : List Nat
  shaders : List Nat
  textures : List Nat
  fbos : List Nat
  renderbuffers : List Nat
deriving DecidableEq

/-- Embedding of rsrcManager.freeFBOs (gfx/gl2/rtt.go): lock, then if any
framebuffer handles are pending issue one batched DeleteFramebuffers call
over the whole slice followed by a flush, truncate the slice to zero length,
and unlock. -/
def RsrcManager.freeFBOs (r : RsrcManager) : RsrcManager × List RsrcEvent :=
  ({ r with fbos := [] },
    [RsrcEvent.lock]
      ++ (if r.fbos.length > 0 then [RsrcEvent.deleteFramebuffers r.fbos, RsrcEvent.flush] else [])
      ++ [RsrcEvent.unlock])

/-- Embedding of rsrcManager.freeRenderbuffers (gfx/gl2/rtt.go): same shape
as freeFBOs with one batched DeleteRenderbuffers call. -/
def RsrcManager.freeRenderbuffers (r : RsrcManager) : RsrcManager × List RsrcEvent :=
  ({ r with renderbuffers := [] },
    [RsrcEvent.lock]
      ++ (if r.renderbuffers.length > 0 then [RsrcEvent.deleteRenderbuffers r.renderbuffers, RsrcEvent.flush] else [])
      ++ [RsrcEvent.unlock])

/-- Modelled from the spec: rsrcManager.freeTextures is called by freePending
(gfx/gl2/device.go line 68) but its body is not among the provided source
files. Following the words of the spec for Reclaim — it locks the per-kind
list, swaps it for empty, unlocks, then performs the native deletion calls
followed by a command-stream flush — the model brackets the swap with lock
and unlock and issues the one batched DeleteTextures call over all pending
handles, and the flush, after unlocking. -/
def RsrcManager.freeTextures (r : RsrcManager) : RsrcManager × List RsrcEvent :=
  ({ r with textures := [] },
    [RsrcEvent.lock, RsrcEvent.unlock]
      ++ (if r.textures.length > 0 then [RsrcEvent.deleteTextures r.textures, RsrcEvent.flush] else []))

/-- Embedding of rsrcManager.freePending (gfx/gl2/device.go): lock, free each
pending mesh with an individual native free call, then each pending shader,
truncate both lists, unlock, then run freeTextures, freeFBOs and
freeRenderbuffers in that order. -/
def RsrcManager.freePending (r : RsrcManager) : RsrcManager × List RsrcEvent :=
  let meshEv := r.meshes.map RsrcEvent.freeMesh
  let shaderEv := r.shaders.map RsrcEvent.freeShader
  let r1 : RsrcManager := { r with meshes := [], shaders := [] }
  let p2 := r1.freeTextures
  let p3 := p2.1.freeFBOs
  let p4 := p3.1.freeRenderbuffers
  (p4.1,
    [RsrcEvent.lock] ++ meshEv ++ shaderEv ++ [RsrcEvent.unlock] ++ p2.2 ++ p3.2 ++ p4.2)

/-- Whether an event is a native deletion call. -/
def RsrcEvent.isDeletion : RsrcEvent → Bool
  | RsrcEvent.freeMesh _ => true
  | RsrcEvent.freeShader _ => true
  | RsrcEvent.deleteTextures _ => true
  | RsrcEvent.deleteFramebuffers _ => true
  | RsrcEvent.deleteRenderbuffers _ => true
  | _ => false

/-- The resource kind a deletion event acts on, if any. -/
def RsrcEvent.kind : RsrcEvent → Option RsrcKind
  | RsrcEvent.freeMesh _ => some RsrcKind.mesh
  | RsrcEvent.freeShader _ => some RsrcKind.shader
  | RsrcEvent.deleteTextures _ => some RsrcKind.texture
  | RsrcEvent.deleteFramebuffers _ => some RsrcKind.fbo
  | RsrcEvent.deleteRenderbuffers _ => some RsrcKind.renderbuffer
  | _ => none

/-- The sequence of deletion kinds appearing in a trace, in order. -/
def kindsOf (tr : List RsrcEvent) : List RsrcKind :=
  tr.filterMap RsrcEvent.kind

/-- For each deletion event of a trace, the mutex hold depth at which it is
issued (starting from depth d). -/
def deletionDepthsAux (d : Nat) : List RsrcEvent → List Nat
  | [] => []
  | RsrcEvent.lock :: es => deletionDepthsAux (d + 1) es
  | RsrcEvent.unlock :: es => deletionDepthsAux (d - 1) es
  | e :: es => (if e.isDeletion then [d] else []) ++ deletionDepthsAux d es

/-- Mutex depth of every deletion event of a trace, in order. -/
def deletionDepths (tr : List RsrcEvent) : List Nat :=
  deletionDepthsAux 0 tr

/-- The property claimed by the spec for the lock protocol: every native
deletion call is performed after unlocking, that is outside the mutex. -/
def deletionsOutsideLock (tr : List RsrcEvent) : Prop :=
  deletionDepths tr = List.replicate (deletionDepths tr).length 0

lemma deletionDepthsAux_freeMesh (d : Nat) (ms : List Nat) (k : List RsrcEvent) :
    deletionDepthsAux d (ms.map RsrcEvent.freeMesh ++ k)
      = List.replicate ms.length d ++ deletionDepthsAux d k := by
  induction ms with
  | nil => simp
  | cons m ms ih =>
      simp [deletionDepthsAux, RsrcEvent.isDeletion, ih, List.replicate_succ]

lemma deletionDepthsAux_freeShader (d : Nat) (ss : List Nat) (k : List RsrcEvent) :
    deletionDepthsAux d (ss.map RsrcEvent.freeShader ++ k)
      = List.replicate ss.length d ++ deletionDepthsAux d k := by
  induction ss with
  | nil => simp
  | cons s ss ih =>
      simp [deletionDepthsAux, RsrcEvent.isDeletion, ih, List.replicate_succ]

lemma filterMap_kind_freeMesh (ms : List Nat) :
    List.filterMap (RsrcEvent.kind ∘ RsrcEvent.freeMesh) ms
      = List.replicate ms.length RsrcKind.mesh := by
  induction ms with
  | nil => simp
  | cons m ms ih => simp [RsrcEvent.kind, ih, List.replicate_succ, Function.comp]

lemma filterMap_kind_freeShader (ss : List Nat) :
    List.filterMap (RsrcEvent.kind ∘ RsrcEvent.freeShader) ss
      = List.replicate ss.length RsrcKind.shader := by
  induction ss with
  | nil => simp
  | cons s ss ih => simp [RsrcEvent.kind, ih, List.replicate_succ, Function.comp]

lemma replicate_append_cons {α : Type} (n : Nat) (x : α) (l : List α) :
    List.replicate n x ++ (x :: l) = x :: (List.replicate n x ++ l) := by
  induction n with
  | zero => simp
  | succ n ih => simp [List.replicate_succ, ih]

lemma kindsOf_freeMesh (ms : List Nat) (k : List RsrcEvent) :
    kindsOf (ms.map RsrcEvent.freeMesh ++ k)
      = (ms.map fun _ => RsrcKind.mesh) ++ kindsOf k := by
  induction ms with
  | nil => simp [kindsOf]
  | cons m ms ih => simpa [kindsOf, RsrcEvent.kind] using ih

lemma kindsOf_freeShader (ss : List Nat) (k : List RsrcEvent) :
    kindsOf (ss.map RsrcEvent.freeShader ++ k)
      = (ss.map fun _ => RsrcKind.shader) ++ kindsOf k := by
  induction ss with
  | nil => simp [kindsOf]
  | cons s ss ih => simpa [kindsOf, RsrcEvent.kind] using ih

lemma freePending_empties (r : RsrcManager) :
    (r.freePending).1 = ⟨[], [], [], [], []⟩ := rfl

lemma freePending_kinds (r : RsrcManager) :
    kindsOf (r.freePending).2
      = (r.meshes.map fun _ => RsrcKind.mesh) ++ (r.shaders.map fun _ => RsrcKind.shader)
        ++ (if r.textures = [] then [] else [RsrcKind.texture])
        ++ (if r.fbos = [] then [] else [RsrcKind.fbo])
        ++ (if r.renderbuffers = [] then [] else [RsrcKind.renderbuffer]) := by
  obtain ⟨ms, ss, ts, fs, rs⟩ := r
  by_cases ht : ts = [] <;> by_cases hf : fs = [] <;> by_cases hr : rs = [] <;>
    simp [RsrcManager.freePending, RsrcManager.freeTextures, RsrcManager.freeFBOs,
      RsrcManager.freeRenderbuffers, ht, hf, hr, List.length_pos, kindsOf,
      List.filterMap_append, filterMap_kind_freeMesh, filterMap_kind_freeShader,
      RsrcEvent.kind]

lemma freePending_mem_deleteTextures (r : RsrcManager) (hs : List Nat) :
    RsrcEvent.deleteTextures hs ∈ (r.freePending).2 ↔ (hs = r.textures ∧ r.textures ≠ []) := by
  obtain ⟨ms, ss, ts, fs, rs⟩ := r
  by_cases ht : ts = [] <;> by_cases hf : fs = [] <;> by_cases hr : rs = [] <;>
    simp [RsrcManager.freePending, RsrcManager.freeTextures, RsrcManager.freeFBOs,
      RsrcManager.freeRenderbuffers, ht, hf, hr, List.length_pos, List.mem_append,
      List.mem_map]

lemma freePending_mem_deleteFramebuffers (r : RsrcManager) (hs : List Nat) :
    RsrcEvent.deleteFramebuffers hs ∈ (r.freePending).2 ↔ (hs = r.fbos ∧ r.fbos ≠ []) := by
  obtain ⟨ms, ss, ts, fs, rs⟩ := r
  by_cases ht : ts = [] <;> by_cases hf : fs = [] <;> by_cases hr : rs = [] <;>
    simp [RsrcManager.freePending, RsrcManager.freeTextures, RsrcManager.freeFBOs,
      RsrcManager.freeRenderbuffers, ht, hf, hr, List.length_pos, List.mem_append,
      List.mem_map]

lemma freePending_mem_deleteRenderbuffers (r : RsrcManager) (hs : List Nat) :
    RsrcEvent.deleteRenderbuffers hs ∈ (r.freePending).2 ↔ (hs = r.renderbuffers ∧ r.renderbuffers ≠ []) := by
  obtain ⟨ms, ss, ts, fs, rs⟩ := r
  by_cases ht : ts = [] <;> by_cases hf : fs = [] <;> by_cases hr : rs = [] <;>
    simp [RsrcManager.freePending, RsrcManager.freeTextures, RsrcManager.freeFBOs,
      RsrcManager.freeRenderbuffers, ht, hf, hr, List.length_pos, List.mem_append,
      List.mem_map]

lemma deletionDepthsAux_nil (d : Nat) : deletionDepthsAux d [] = [] := rfl

lemma deletionDepthsAux_lock (d : Nat) (es : List RsrcEvent) :
    deletionDepthsAux d (RsrcEvent.lock :: es) = deletionDepthsAux (d + 1) es := rfl

lemma deletionDepthsAux_unlock (d : Nat) (es : List RsrcEvent) :
    deletionDepthsAux d (RsrcEvent.unlock :: es) = deletionDepthsAux (d - 1) es := rfl

lemma deletionDepthsAux_flush (d : Nat) (es : List RsrcEvent) :
    deletionDepthsAux d (RsrcEvent.flush :: es) = deletionDepthsAux d es := rfl

lemma deletionDepthsAux_deleteTextures (d : Nat) (hs : List Nat) (es : List RsrcEvent) :
    deletionDepthsAux d (RsrcEvent.deleteTextures hs :: es) = d :: deletionDepthsAux d es := rfl

lemma deletionDepthsAux_deleteFramebuffers (d : Nat) (hs : List Nat) (es : List RsrcEvent) :
    deletionDepthsAux d (RsrcEvent.deleteFramebuffers hs :: es) = d :: deletionDepthsAux d es := rfl

lemma deletionDepthsAux_deleteRenderbuffers (d : Nat) (hs : List Nat) (es : List RsrcEvent) :
    deletionDepthsAux d (RsrcEvent.deleteRenderbuffers hs :: es) = d :: deletionDepthsAux d es := rfl

/-- For each deletion event of a trace, the kind it deletes paired with the
mutex hold depth at which it is issued (starting from depth d). -/
def deletionKindDepthsAux (d : Nat) : List RsrcEvent → List (RsrcKind × Nat)
  | [] => []
  | RsrcEvent.lock :: es => deletionKindDepthsAux (d + 1) es
  | RsrcEvent.unlock :: es => deletionKindDepthsAux (d - 1) es
  | e :: es =>
      (match e.kind with
       | some k => [(k, d)]
       | none => []) ++ deletionKindDepthsAux d es

/-- Kind and mutex depth of every deletion event of a trace, in order. -/
def deletionKindDepths (tr : List RsrcEvent) : List (RsrcKind × Nat) :=
  deletionKindDepthsAux 0 tr

lemma deletionKindDepthsAux_nil (d : Nat) : deletionKindDepthsAux d [] = [] := rfl

lemma deletionKindDepthsAux_lock (d : Nat) (es : List RsrcEvent) :
    deletionKindDepthsAux d (RsrcEvent.lock :: es) = deletionKindDepthsAux (d + 1) es := rfl

lemma deletionKindDepthsAux_unlock (d : Nat) (es : List RsrcEvent) :
    deletionKindDepthsAux d (RsrcEvent.unlock :: es) = deletionKindDepthsAux (d - 1) es := rfl

lemma deletionKindDepthsAux_flush (d : Nat) (es : List RsrcEvent) :
    deletionKindDepthsAux d (RsrcEvent.flush :: es) = deletionKindDepthsAux d es := rfl

lemma deletionKindDepthsAux_deleteTextures (d : Nat) (hs : List Nat) (es : List RsrcEvent) :
    deletionKindDepthsAux d (RsrcEvent.deleteTextures hs :: es)
      = (RsrcKind.texture, d) :: deletionKindDepthsAux d es := rfl

lemma deletionKindDepthsAux_deleteFramebuffers (d : Nat) (hs : List Nat) (es : List RsrcEvent) :
    deletionKindDepthsAux d (RsrcEvent.deleteFramebuffers hs :: es)
      = (RsrcKind.fbo, d) :: deletionKindDepthsAux d es := rfl

lemma deletionKindDepthsAux_deleteRenderbuffers (d : Nat) (hs : List Nat) (es : List RsrcEvent) :
    deletionKindDepthsAux d (RsrcEvent.deleteRenderbuffers hs :: es)
      = (RsrcKind.renderbuffer, d) :: deletionKindDepthsAux d es := rfl

lemma deletionKindDepthsAux_freeMesh (d : Nat) (ms : List Nat) (k : List RsrcEvent) :
    deletionKindDepthsAux d (ms.map RsrcEvent.freeMesh ++ k)
      = List.replicate ms.length (RsrcKind.mesh, d) ++ deletionKindDepthsAux d k := by
  induction ms with
  | nil => simp
  | cons m ms ih =>
      simp [deletionKindDepthsAux, RsrcEvent.kind, ih, List.replicate_succ]

lemma deletionKindDepthsAux_freeShader (d : Nat) (ss : List Nat) (k : List RsrcEvent) :
    deletionKindDepthsAux d (ss.map RsrcEvent.freeShader ++ k)
      = List.replicate ss.length (RsrcKind.shader, d) ++ deletionKindDepthsAux d k := by
  induction ss with
  | nil => simp
  | cons s ss ih =>
      simp [deletionKindDepthsAux, RsrcEvent.kind, ih, List.replicate_succ]

lemma freePending_kind_depths_eq (r : RsrcManager) :
    deletionKindDepths (r.freePending).2
      = List.replicate r.meshes.length (RsrcKind.mesh, 1)
        ++ List.replicate r.shaders.length (RsrcKind.shader, 1)
        ++ (if r.textures = [] then [] else [(RsrcKind.texture, 0)])
        ++ (if r.fbos = [] then [] else [(RsrcKind.fbo, 1)])
        ++ (if r.renderbuffers = [] then [] else [(RsrcKind.renderbuffer, 1)]) := by
  obtain ⟨ms, ss, ts, fs, rs⟩ := r
  by_cases ht : ts = [] <;> by_cases hf : fs = [] <;> by_cases hr : rs = [] <;>
    simp only [RsrcManager.freePending, RsrcManager.freeTextures, RsrcManager.freeFBOs,
      RsrcManager.freeRenderbuffers, ht, hf, hr, List.cons_append, List.nil_append,
      List.append_assoc, List.append_nil, List.singleton_append, if_true, if_false,
      List.length_nil, List.length_cons, gt_iff_lt, Nat.lt_irrefl, Nat.succ_pos,
      List.length_pos, ne_eq, not_false_iff, ite_true, ite_false, deletionKindDepths,
      deletionKindDepthsAux_lock, deletionKindDepthsAux_unlock, deletionKindDepthsAux_flush,
      deletionKindDepthsAux_deleteTextures, deletionKindDepthsAux_deleteFramebuffers,
      deletionKindDepthsAux_deleteRenderbuffers, deletionKindDepthsAux_freeMesh,
      deletionKindDepthsAux_freeShader, deletionKindDepthsAux_nil]

lemma mem_ite_nil_singleton {A : Type} (p : A) (c : Prop) [Decidable c] (a : A)
    (h : p ∈ (if c then ([] : List A) else [a])) : p = a := by
  by_cases hc : c
  · rw [if_pos hc] at h
    cases h
  · rw [if_neg hc] at h
    exact List.mem_singleton.mp h

lemma freePending_kind_depths (r : RsrcManager) :
    ∀ p ∈ deletionKindDepths (r.freePending).2,
      p.2 = (if p.1 = RsrcKind.texture then 0 else 1) := by
  intro p hp
  rw [freePending_kind_depths_eq r] at hp
  simp only [List.mem_append] at hp
  rcases hp with ((((hp | hp) | hp) | hp) | hp)
  · rw [List.eq_of_mem_replicate hp]
    decide
  · rw [List.eq_of_mem_replicate hp]
    decide
  · rw [mem_ite_nil_singleton p _ _ hp]
    decide
  · rw [mem_ite_nil_singleton p _ _ hp]
    decide
  · rw [mem_ite_nil_singleton p _ _ hp]
    decide

/-- Claim C7 (amended): a single reclamation pass processes the pending lists
kind-by-kind in the fixed order meshes, shaders, textures, framebuffers,
renderbuffers, leaving every per-kind list empty afterwards; for N pending
numeric handles of one kind it issues exactly one batched native deletion
call covering all N handles, never N individual calls; but for the kinds
whose code is in the source (meshes, shaders, framebuffers, renderbuffers)
the native deletion calls are performed while the list mutex is held (at
lock depth one), not after unlocking as the claim states; only the texture
kind, whose body is absent from the source and modelled from the words of
the spec, deletes after unlocking (at lock depth zero). -/
theorem freePending_kind_order_batched (r : RsrcManager) :
    ((r.freePending).1.meshes = [] ∧ (r.freePending).1.shaders = [] ∧
      (r.freePending).1.textures = [] ∧ (r.freePending).1.fbos = [] ∧
      (r.freePending).1.renderbuffers = []) ∧
    kindsOf (r.freePending).2
      = (r.meshes.map fun _ => RsrcKind.mesh) ++ (r.shaders.map fun _ => RsrcKind.shader)
        ++ (if r.textures = [] then [] else [RsrcKind.texture])
        ++ (if r.fbos = [] then [] else [RsrcKind.fbo])
        ++ (if r.renderbuffers = [] then [] else [RsrcKind.renderbuffer]) ∧
    (∀ hs, RsrcEvent.deleteTextures hs ∈ (r.freePending).2 ↔ (hs = r.textures ∧ r.textures ≠ [])) ∧
    (∀ hs, RsrcEvent.deleteFramebuffers hs ∈ (r.freePending).2 ↔ (hs = r.fbos ∧ r.fbos ≠ [])) ∧
    (∀ hs, RsrcEvent.deleteRenderbuffers hs ∈ (r.freePending).2 ↔ (hs = r.renderbuffers ∧ r.renderbuffers ≠ [])) ∧
    (∀ p ∈ deletionKindDepths (r.freePending).2,
      p.2 = (if p.1 = RsrcKind.texture then 0 else 1)) := by
  refine ⟨?_, freePending_kinds r, freePending_mem_deleteTextures r,
    freePending_mem_deleteFramebuffers r, freePending_mem_deleteRenderbuffers r,
    freePending_kind_depths r⟩
  rw [freePending_empties r]
  exact ⟨rfl, rfl, rfl, rfl, rfl⟩

/-- Claim C7 counterexample: with a single pending framebuffer handle, the
reclamation pass issues its batched DeleteFramebuffers call while holding the
mutex, so the claimed performs-the-native-deletions-after-unlocking property
is false. -/
theorem freePending_deletion_under_lock_cex :
    ¬ deletionsOutsideLock (RsrcManager.freePending ⟨[], [], [], [7], []⟩).2 := by
  unfold deletionsOutsideLock deletionDepths
  decide

/-! ## Device command-queue model (gfx/gl2/device.go and gfx/gl2/rtt.go)

The device owns a buffered channel renderExec of operations returning a
boolean (did this operation present a frame). Producers append operations;
the single consumer thread pops and executes them. The model represents the
channel by the list of its buffered contents, and native GL calls by a trace
of GLCall events. Fallible fueled execution returns none when fuel runs out
(the fuel only bounds the drain loop nesting and the busy-poll of
queryWait). -/

/-- Native GL calls recorded by the device model. -/
inductive GLCall where
  | reclaim
  | stateBegin
  | colorWrite
  | depthWrite
  | stencilMask
  | scissor (bounds rect : Rect)
  | clearColor (c : Color)
  | clearDepthVal (depth : Int)
  | clearStencilVal (stencil : Int)
  | clear (mask : Nat)
  | flush
  | bindFramebuffer (fbo : Nat)
  | bindTexture (id : Nat)
  | generateMipmap
  | getQueryResult (q : Nat)
  | deleteQuery (q : Nat)
deriving DecidableEq

/-- gl.COLOR_BUFFER_BIT. -/
def COLOR_BUFFER_BIT : Nat := 0x00004000

/-- gl.DEPTH_BUFFER_BIT. -/
def DEPTH_BUFFER_BIT : Nat := 0x00000100

/-- gl.STENCIL_BUFFER_BIT. -/
def STENCIL_BUFFER_BIT : Nat := 0x00000400

/-- The data of an rttCanvas captured by the rttBegin and rttEnd closures:
its framebuffer object id and its bounds. -/
structure RttRef where
  fbo : Nat
  bounds : Rect
deriving DecidableEq

/-- The post closure passed to hookedRender: device.Render passes nil;
rttCanvas.Render passes a closure that regenerates mipmaps for each
mipmapped destination texture (captured here by the list of native texture
ids it would touch) and then unbinds. -/
inductive RenderPost where
  | noPost
  | rttMipmaps (ids : List Nat)
deriving DecidableEq

/-- The operations the program submits to the renderExec channel, each
standing for the closure built at the corresponding call site:
clearOp/clearDepthOp/clearStencilOp from hookedClear and friends (wrap is
some canvas data when the pre and post closures are rttBegin and rttEnd of
that canvas, none when they are nil), queryWaitOp from hookedQueryWait,
renderOp from hookedRender, and freeTick from the periodic yield goroutine. -/
inductive Op where
  | clearOp (rect : Rect) (bg : Color) (wrap : Option RttRef)
  | clearDepthOp (rect : Rect) (depth : Int) (wrap : Option RttRef)
  | clearStencilOp (rect : Rect) (stencil : Int) (wrap : Option RttRef)
  | queryWaitOp (wrap : Option RttRef)
  | renderOp (post : RenderPost)
  | freeTick
deriving DecidableEq

/-- The device state: the buffered renderExec contents, the rttCanvas field
(non-nil while rendering to a texture), the frame clock tick count, the
canvas bounds, the resource manager, the occlusion-query capability flag and
pending query ids with the global poll round counter, the GL call trace, and
the number of completions signalled on the renderComplete channel. -/
structure Dev where
  queue : List Op
  rtt : Option RttRef
  ticks : Nat
  bounds : Rect
  rsrc : RsrcManager
  occl : Bool
  pending : List Nat
  qtime : Nat
  calls : List GLCall
  renderCompletes : Nat
deriving DecidableEq

/-- Emit one native call. -/
def Dev.emit (d : Dev) (c : GLCall) : Dev :=
  { d with calls := d.calls ++ [c] }

/-- Last index of q in the list (the source finds the index with a scan that
keeps overwriting, so the last match wins; 0 when there is no match). -/
def lastIdxAux (q : Nat) : List Nat → Nat → Nat → Nat
  | [], _, best => best
  | x :: xs, i, best => lastIdxAux q xs (i + 1) (if x = q then i else best)

/-- Remove the entry of pending at the last index holding q (embedding of
the removal in queryYield built from append of the slices around idx). -/
def removeLastOcc (l : List Nat) (q : Nat) : List Nat :=
  l.eraseIdx (lastIdxAux q l 0 0)

/-- Remove each element of the second list from the first, one at a time,
in order (the toRemove loop of queryYield). -/
def removeEach : List Nat → List Nat → List Nat
  | l, [] => l
  | l, q :: qs => removeEach (removeLastOcc l q) qs

/-- Embedding of device.queryYield: when the occlusion-query capability is
absent return 0 immediately; otherwise poll every pending query for result
availability (availability is the oracle avail applied to the current poll
round and the query id), retrieve the result and delete the native query for
each available one, remove them from the pending list, and return the number
still pending. The sample-count write into the owning object is not tracked
because no claim depends on it. -/
def queryYieldExec (avail : Nat → Nat → Bool) (d : Dev) : Dev × Nat :=
  if !d.occl then (d, 0)
  else
    let toRemove := d.pending.filter (fun q => avail d.qtime q)
    let remaining := removeEach d.pending toRemove
    let evs := (toRemove.map (fun q => [GLCall.getQueryResult q, GLCall.deleteQuery q])).join
    ({ d with pending := remaining, qtime := d.qtime + 1, calls := d.calls ++ evs },
      remaining.length)

/-- The busy-poll loop of device.queryWait: poll queryYield; while it
reports a positive pending count run the loop body, which calls
runtime.Gosched() only when the iteration counter i is nonzero and divisible
by 16. Returns (device, number of polls performed, iteration indices at
which Gosched ran); none when fuel is exhausted before the count reached
zero. -/
def queryWaitLoopExec (avail : Nat → Nat → Bool) : Nat → Nat → Dev → Option (Dev × Nat × List Nat)
  | 0, _, _ => none
  | Nat.succ fuel, i, d =>
      let p := queryYieldExec avail d
      if p.2 = 0 then some (p.1, i + 1, [])
      else
        match queryWaitLoopExec avail fuel (i + 1) p.1 with
        | none => none
        | some (d2, pc, gs) =>
            some (d2, pc, (if i ≠ 0 ∧ i % 16 = 0 then [i] else []) ++ gs)

/-- Embedding of device.queryWait: no-op when the occlusion-query capability
is absent, else the busy-poll loop starting at iteration 0. -/
def queryWaitExec (avail : Nat → Nat → Bool) (fuel : Nat) (d : Dev) : Option (Dev × Nat × List Nat) :=
  if d.occl then queryWaitLoopExec avail fuel 0 d else some (d, 0, [])

/-- The rttBegin closure of a canvas: set the rttCanvas field of the device
and bind the framebuffer object; the pre closure is nil when wrap is none. -/
def execPre (d : Dev) (wrap : Option RttRef) : Dev :=
  match wrap with
  | none => d
  | some c => ({ d with rtt := some c }).emit (GLCall.bindFramebuffer c.fbo)

/-- The rttEnd closure of a canvas: reset the rttCanvas field of the device
and unbind the framebuffer object; the post closure is nil when wrap is
none. -/
def execPost (d : Dev) (wrap : Option RttRef) : Dev :=
  match wrap with
  | none => d
  | some _ => ({ d with rtt := none }).emit (GLCall.bindFramebuffer 0)

/-- Embedding of device.performScissor: pass the rttCanvas bounds when one
is bound, else the device bounds. -/
def Dev.performScissor (d : Dev) (rect : Rect) : Dev :=
  match d.rtt with
  | some c => d.emit (GLCall.scissor c.bounds rect)
  | none => d.emit (GLCall.scissor d.bounds rect)

/-- Run the device resource reclamation (rsrcManager.freePending); the
reclaim event marks the pass in the call trace, and its inner native
deletion trace is modelled by RsrcManager.freePending. -/
def Dev.reclaim (d : Dev) : Dev :=
  { d with rsrc := (d.rsrc.freePending).1, calls := d.calls ++ [GLCall.reclaim] }

/-- The body of the closure enqueued by hookedClear: pre, state begin,
color-write mask, scissor, clear color, gl.Clear of the color buffer bit,
queryYield, post; returns false (no frame presented). -/
def execClear (avail : Nat → Nat → Bool) (d : Dev) (rect : Rect) (bg : Color) (wrap : Option RttRef) : Dev × Bool :=
  let d1 := ((execPre d wrap).emit GLCall.stateBegin).emit GLCall.colorWrite
  let d2 := ((d1.performScissor rect).emit (GLCall.clearColor bg)).emit (GLCall.clear COLOR_BUFFER_BIT)
  let d3 := (queryYieldExec avail d2).1
  (execPost d3 wrap, false)

/-- The body of the closure enqueued by hookedClearDepth. -/
def execClearDepth (avail : Nat → Nat → Bool) (d : Dev) (rect : Rect) (depth : Int) (wrap : Option RttRef) : Dev × Bool :=
  let d1 := ((execPre d wrap).emit GLCall.stateBegin).emit GLCall.depthWrite
  let d2 := ((d1.performScissor rect).emit (GLCall.clearDepthVal depth)).emit (GLCall.clear DEPTH_BUFFER_BIT)
  let d3 := (queryYieldExec avail d2).1
  (execPost d3 wrap, false)

/-- The body of the closure enqueued by hookedClearStencil. -/
def execClearStencil (avail : Nat → Nat → Bool) (d : Dev) (rect : Rect) (stencil : Int) (wrap : Option RttRef) : Dev × Bool :=
  let d1 := ((execPre d wrap).emit GLCall.stateBegin).emit GLCall.stencilMask
  let d2 := ((d1.performScissor rect).emit (GLCall.clearStencilVal stencil)).emit (GLCall.clear STENCIL_BUFFER_BIT)
  let d3 := (queryYieldExec avail d2).1
  (execPost d3 wrap, false)

/-- The post closure of rttCanvas.Render: bind and regenerate mipmaps for
each mipmapped destination texture, then unbind. -/
def execRenderPost (d : Dev) (post : RenderPost) : Dev :=
  match post with
  | RenderPost.noPost => d
  | RenderPost.rttMipmaps ids =>
      (ids.foldl (fun acc id => (acc.emit (GLCall.bindTexture id)).emit GLCall.generateMipmap) d).emit
        (GLCall.bindTexture 0)

mutual
/-- Execute one dequeued operation: the body of the closure the program
built at the corresponding call site. Fuel bounds drain-loop nesting and the
queryWait busy-poll; none means fuel ran out. The boolean is the value the
operation returns: true exactly when a frame was presented. -/
def runOp (avail : Nat → Nat → Bool) (fuel : Nat) (d : Dev) (op : Op) : Option (Dev × Bool) :=
  match fuel with
  | 0 => none
  | Nat.succ fuel =>
    match op with
    | Op.clearOp rect bg wrap => some (execClear avail d rect bg wrap)
    | Op.clearDepthOp rect depth wrap => some (execClearDepth avail d rect depth wrap)
    | Op.clearStencilOp rect stencil wrap => some (execClearStencil avail d rect stencil wrap)
    | Op.queryWaitOp wrap =>
        let d1 := (execPre d wrap).emit GLCall.flush
        match queryWaitExec avail fuel d1 with
        | none => none
        | some (d2, _, _) =>
            let d3 := execPost d2 wrap
            some ({ d3 with renderCompletes := d3.renderCompletes + 1 }, false)
    | Op.renderOp post =>
        let d1 := d.reclaim
        match drainLoop avail fuel 0 d1 with
        | none => none
        | some d2 =>
            let d3 := d2.emit GLCall.flush
            match queryWaitExec avail fuel d3 with
            | none => none
            | some (d4, _, _) =>
                let d5 := execRenderPost d4 post
                match d5.rtt with
                | some _ => some ({ d5 with renderCompletes := d5.renderCompletes + 1 }, false)
                | none =>
                    let d6 : Dev := { d5 with ticks := d5.ticks + 1 }
                    some ({ d6 with renderCompletes := d6.renderCompletes + 1 }, true)
    | Op.freeTick =>
        let d1 := d.reclaim
        some ((queryYieldExec avail d1).1, false)

/-- The drain loop inside the hookedRender closure: for i starting at 0,
while i is less than the current buffered length of renderExec (the length
is re-read on every iteration of the loop), pop one operation, execute it
discarding its boolean, and increment i. -/
def drainLoop (avail : Nat → Nat → Bool) (fuel : Nat) (i : Nat) (d : Dev) : Option Dev :=
  match fuel with
  | 0 => none
  | Nat.succ fuel =>
    if i < d.queue.length then
      match d.queue with
      | [] => some d
      | op :: rest =>
          match runOp avail fuel { d with queue := rest } op with
          | none => none
          | some (d2, _) => drainLoop avail fuel (i + 1) d2
    else some d
end

/-- Embedding of device.hookedClear, producer side: clearing an empty
rectangle is a no-op (nothing is enqueued), otherwise exactly one clear
operation is appended to renderExec. -/
def Dev.hookedClear (d : Dev) (rect : Rect) (bg : Color) (wrap : Option RttRef) : Dev :=
  if rect.empty then d else { d with queue := d.queue ++ [Op.clearOp rect bg wrap] }

/-- Embedding of device.hookedClearDepth, producer side. -/
def Dev.hookedClearDepth (d : Dev) (rect : Rect) (depth : Int) (wrap : Option RttRef) : Dev :=
  if rect.empty then d else { d with queue := d.queue ++ [Op.clearDepthOp rect depth wrap] }

/-- Embedding of device.hookedClearStencil, producer side. -/
def Dev.hookedClearStencil (d : Dev) (rect : Rect) (stencil : Int) (wrap : Option RttRef) : Dev :=
  if rect.empty then d else { d with queue := d.queue ++ [Op.clearStencilOp rect stencil wrap] }

/-- Embedding of device.hookedQueryWait, producer side. -/
def Dev.hookedQueryWaitEnqueue (d : Dev) (wrap : Option RttRef) : Dev :=
  { d with queue := d.queue ++ [Op.queryWaitOp wrap] }

/-- Embedding of device.hookedRender, producer side: one render operation is
appended; the caller then blocks on renderComplete. -/
def Dev.hookedRenderEnqueue (d : Dev) (post : RenderPost) : Dev :=
  { d with queue := d.queue ++ [Op.renderOp post] }

/-- device.Clear: hookedClear with nil pre and post. -/
def Dev.Clear (d : Dev) (rect : Rect) (bg : Color) : Dev :=
  d.hookedClear rect bg none

/-- device.Render: hookedRender with nil pre and post. -/
def Dev.Render (d : Dev) : Dev :=
  d.hookedRenderEnqueue RenderPost.noPost

/-- Embedding of rttCanvas: the canvas data captured by its closures and
the live texture reference count (decremented to zero as attachments are
finalized). -/
structure RttCanvas where
  ref : RttRef
  textureCount : Nat
deriving DecidableEq

/-- Embedding of rttCanvas.noop: all textures have been freed and canvas
methods are considered no-op once the count reaches zero. -/
def RttCanvas.noop (c : RttCanvas) : Bool :=
  c.textureCount = 0

/-- Embedding of rttCanvas.Clear: checks noop, then hookedClear with
rttBegin and rttEnd closures. -/
def RttCanvas.Clear (c : RttCanvas) (d : Dev) (rect : Rect) (bg : Color) : Dev :=
  if c.noop then d else d.hookedClear rect bg (some c.ref)

/-- Embedding of rttCanvas.ClearDepth: hookedClearDepth with rttBegin and
rttEnd; the source performs no noop check here. -/
def RttCanvas.ClearDepth (c : RttCanvas) (d : Dev) (rect : Rect) (depth : Int) : Dev :=
  d.hookedClearDepth rect depth (some c.ref)

/-- Embedding of rttCanvas.ClearStencil: hookedClearStencil with rttBegin
and rttEnd; the source performs no noop check here. -/
def RttCanvas.ClearStencil (c : RttCanvas) (d : Dev) (rect : Rect) (stencil : Int) : Dev :=
  d.hookedClearStencil rect stencil (some c.ref)

/-- Embedding of rttCanvas.QueryWait: hookedQueryWait with rttBegin and
rttEnd. -/
def RttCanvas.QueryWait (c : RttCanvas) (d : Dev) : Dev :=
  d.hookedQueryWaitEnqueue (some c.ref)

/-- Embedding of rttCanvas.Render: hookedRender with a nil pre closure and a
post closure that regenerates mipmaps of the mipmapped destination textures
(their native ids are mipIds). The source passes neither rttBegin nor rttEnd
here and performs no noop check. -/
def RttCanvas.Render (c : RttCanvas) (d : Dev) (mipIds : List Nat) : Dev :=
  d.hookedRenderEnqueue (RenderPost.rttMipmaps mipIds)

/-- The three post-creation clear calls at the end of RenderToTexture
(gfx/gl2/rtt.go): canvas.Clear, canvas.ClearDepth and canvas.ClearStencil,
each with the literal rectangle image.Rect(0, 0, 0, 0). -/
def rttPostCreateClears (c : RttCanvas) (d : Dev) : Dev :=
  let d1 := c.Clear d ⟨0, 0, 0, 0⟩ ⟨0, 0, 0, 1⟩
  let d2 := c.ClearDepth d1 ⟨0, 0, 0, 0⟩ 1
  c.ClearStencil d2 ⟨0, 0, 0, 0⟩ 0

/-- Number of native gl.Clear calls in a trace. -/
def countClears (cs : List GLCall) : Nat :=
  (cs.filter (fun c => match c with | GLCall.clear _ => true | _ => false)).length

/-- A concrete base device: empty queue, no RTT canvas bound, no
occlusion-query capability, empty logs. -/
def dev0 : Dev :=
  { queue := [], rtt := none, ticks := 0, bounds := ⟨0, 0, 640, 480⟩,
    rsrc := ⟨[], [], [], [], []⟩, occl := false, pending := [], qtime := 0,
    calls := [], renderCompletes := 0 }

/-- A concrete non-empty clear rectangle. -/
def rectA : Rect := ⟨0, 0, 100, 100⟩

/-- A concrete clear color. -/
def red : Color := ⟨1, 0, 0, 1⟩

/-- The always-available occlusion-query oracle used by concrete runs. -/
def availAll : Nat → Nat → Bool := fun _ _ => true

/-- Claim C1: the operation executed by Render first triggers resource
reclamation and then drains the queue, but the drain loop re-reads the
channel length on every iteration, so of two operations queued at the moment
the drain begins only one executes: with buffered queue [clear, clearDepth],
after the render operation completes the clearDepth operation is still
queued, exactly one native clear ran, and the render returned true. This
refutes the drains-and-executes-every-queued-operation part of the claim. -/
theorem render_drain_skips_queued_op_cex :
    (runOp availAll 10
        { dev0 with queue := [Op.clearOp rectA red none, Op.clearDepthOp rectA 1 none] }
        (Op.renderOp RenderPost.noPost)).map
        (fun p => (p.1.queue, countClears p.1.calls, p.2))
      = some ([Op.clearDepthOp rectA 1 none], 1, true) := by
  rfl

/-- Claim C2: rttCanvas.Render enqueues a render operation whose pre closure
is nil, so it never sets the rttCanvas field of the device; at the internal
flush the field is nil, hence the operation ticks the frame clock and
returns true (frame presented) even though the Render was issued through an
RTT canvas. This refutes the returns-false-and-does-not-advance-the-clock
part of the claim. -/
theorem rtt_render_presents_frame_cex (c : RttCanvas) :
    (c.Render dev0 [5]).queue = [Op.renderOp (RenderPost.rttMipmaps [5])] ∧
    (runOp availAll 10 dev0 (Op.renderOp (RenderPost.rttMipmaps [5]))).map
        (fun p => (p.1.ticks, p.2))
      = some (1, true) := by
  exact ⟨rfl, rfl⟩

/-- A canvas whose live texture count has reached zero. -/
def deadCanvas : RttCanvas := ⟨⟨3, ⟨0, 0, 64, 64⟩⟩, 0⟩

/-- Claim C3: on a canvas whose live-texture count is zero (noop reports
true), ClearDepth still enqueues an operation — only Clear checks the noop
state — and executing that operation issues a native clear call. This
refutes the all-subsequent-calls-are-silent-no-ops part of the claim. -/
theorem dead_canvas_clearDepth_executes_cex :
    RttCanvas.noop deadCanvas = true ∧
    (deadCanvas.ClearDepth dev0 rectA 1).queue
      = [Op.clearDepthOp rectA 1 (some deadCanvas.ref)] ∧
    (runOp availAll 10 dev0 (Op.clearDepthOp rectA 1 (some deadCanvas.ref))).map
        (fun p => countClears p.1.calls)
      = some 1 := by
  exact ⟨rfl, rfl, rfl⟩

/-- Claim C4: the three clears issued right after RenderToTexture creates a
canvas pass the empty rectangle Rect(0, 0, 0, 0), and the hooked clear
functions skip empty rectangles, so no clear operation is enqueued at all —
for any canvas and any device state the three calls leave the device
unchanged, and no native clear can execute before the first user draw. -/
theorem rtt_creation_clears_enqueue_nothing (c : RttCanvas) (d : Dev) :
    rttPostCreateClears c d = d := by
  simp [rttPostCreateClears, RttCanvas.Clear, RttCanvas.ClearDepth, RttCanvas.ClearStencil,
    Dev.hookedClear, Dev.hookedClearDepth, Dev.hookedClearStencil, Rect.empty]

/-! ## RenderToTexture control flow (gfx/gl2/rtt.go) -/

/-- Embedding of gfx.RTTConfig as read by RenderToTexture: optional
destination textures (by opaque id), the requested color, depth and stencil
formats (0 stands for the zero format gfx.ZeroTexFormat or gfx.ZeroDSFormat),
the bounds, and the sample count. -/
structure RTTConfig where
  color : Option Nat
  depth : Option Nat
  stencil : Option Nat
  colorFormat : Nat
  depthFormat : Nat
  stencilFormat : Nat
  bounds : Rect
  samples : Nat
deriving DecidableEq

/-- The native framebuffer completeness validation result as classified by
glc.FramebufferStatus: complete (nil error), the documented unsupported
status, or any other completeness failure. -/
inductive FBStatus where
  | complete
  | unsupported
  | otherError
deriving DecidableEq

/-- The device inputs RenderToTexture consults: the framebuffer-object
capability flag and the format lookup tables rttTexFormats and rttDSFormats
(association lists from gfx formats to native GL formats). -/
structure RTTDevice where
  glArbFramebufferObject : Bool
  rttTexFormats : List (Nat × Nat)
  rttDSFormats : List (Nat × Nat)
deriving DecidableEq

/-- Outcome of RenderToTexture: panic on an invalid configuration, panic on
an undocumented framebuffer completeness failure, nil canvas, or a created
canvas. -/
inductive RTTOutcome where
  | panicInvalidCfg
  | panicFramebuffer
  | nilCanvas
  | canvasOk
deriving DecidableEq

/-- Embedding of the control flow of device.RenderToTexture
(gfx/gl2/rtt.go): panic when cfg.Valid() is false (valid is the result of
that check, whose body lives outside the provided sources and is treated as
an input); return nil when the framebuffer-object capability is absent;
return nil when a requested nonzero color, depth or stencil format has no
entry in the corresponding format table; otherwise submit the synchronous
creation operation and then return nil when completeness validation reports
unsupported, panic on any other completeness error, and the canvas on
success. The boolean records whether the creation operation was submitted to
renderExec; all native allocation calls happen inside that operation. -/
def RenderToTexture (dev : RTTDevice) (valid : Bool) (cfg : RTTConfig) (fbStatus : FBStatus) : RTTOutcome × Bool :=
  if valid = false then (RTTOutcome.panicInvalidCfg, false)
  else if dev.glArbFramebufferObject = false then (RTTOutcome.nilCanvas, false)
  else if cfg.colorFormat ≠ 0 ∧ (dev.rttTexFormats.lookup cfg.colorFormat) = none then (RTTOutcome.nilCanvas, false)
  else if cfg.depthFormat ≠ 0 ∧ (dev.rttDSFormats.lookup cfg.depthFormat) = none then (RTTOutcome.nilCanvas, false)
  else if cfg.stencilFormat ≠ 0 ∧ (dev.rttDSFormats.lookup cfg.stencilFormat) = none then (RTTOutcome.nilCanvas, false)
  else
    match fbStatus with
    | FBStatus.unsupported => (RTTOutcome.nilCanvas, true)
    | FBStatus.otherError => (RTTOutcome.panicFramebuffer, true)
    | FBStatus.complete => (RTTOutcome.canvasOk, true)

/-- Claim C5: for a valid configuration, RenderToTexture returns nil exactly
when the framebuffer-object capability is absent, or a requested nonzero
color, depth or stencil format has no native equivalent in the format
tables, or completeness validation reports the documented unsupported
status; any other completeness failure (reached once the capability and
format checks pass) panics; and with the capability absent the creation
operation is never submitted, so no native allocation call is issued. -/
theorem renderToTexture_nil_iff (dev : RTTDevice) (cfg : RTTConfig) (fb : FBStatus) :
    ((RenderToTexture dev true cfg fb).1 = RTTOutcome.nilCanvas ↔
      (dev.glArbFramebufferObject = false ∨
        (cfg.colorFormat ≠ 0 ∧ dev.rttTexFormats.lookup cfg.colorFormat = none) ∨
        (cfg.depthFormat ≠ 0 ∧ dev.rttDSFormats.lookup cfg.depthFormat = none) ∨
        (cfg.stencilFormat ≠ 0 ∧ dev.rttDSFormats.lookup cfg.stencilFormat = none) ∨
        fb = FBStatus.unsupported)) ∧
    (dev.glArbFramebufferObject = true →
      ¬(cfg.colorFormat ≠ 0 ∧ dev.rttTexFormats.lookup cfg.colorFormat = none) →
      ¬(cfg.depthFormat ≠ 0 ∧ dev.rttDSFormats.lookup cfg.depthFormat = none) →
      ¬(cfg.stencilFormat ≠ 0 ∧ dev.rttDSFormats.lookup cfg.stencilFormat = none) →
      fb = FBStatus.otherError →
      (RenderToTexture dev true cfg fb).1 = RTTOutcome.panicFramebuffer) ∧
    (dev.glArbFramebufferObject = false → (RenderToTexture dev true cfg fb).2 = false) := by
  have hb : dev.glArbFramebufferObject = false ∨ dev.glArbFramebufferObject = true := by
    cases dev.glArbFramebufferObject
    · exact Or.inl rfl
    · exact Or.inr rfl
  have hvalid : ¬ ((true : Bool) = false) := by simp
  refine ⟨?_, ?_, ?_⟩
  · rcases hb with h | h
    · have hred : RenderToTexture dev true cfg fb = (RTTOutcome.nilCanvas, false) := by
        unfold RenderToTexture
        rw [if_neg hvalid, if_pos h]
      rw [hred]
      exact iff_of_true rfl (Or.inl h)
    · by_cases h2 : cfg.colorFormat ≠ 0 ∧ dev.rttTexFormats.lookup cfg.colorFormat = none
      · have hred : RenderToTexture dev true cfg fb = (RTTOutcome.nilCanvas, false) := by
          unfold RenderToTexture
          rw [if_neg hvalid, if_neg (by rw [h]; exact hvalid), if_pos h2]
        rw [hred]
        exact iff_of_true rfl (Or.inr (Or.inl h2))
      · by_cases h3 : cfg.depthFormat ≠ 0 ∧ dev.rttDSFormats.lookup cfg.depthFormat = none
        · have hred : RenderToTexture dev true cfg fb = (RTTOutcome.nilCanvas, false) := by
            unfold RenderToTexture
            rw [if_neg hvalid, if_neg (by rw [h]; exact hvalid), if_neg h2, if_pos h3]
          rw [hred]
          exact iff_of_true rfl (Or.inr (Or.inr (Or.inl h3)))
        · by_cases h4 : cfg.stencilFormat ≠ 0 ∧ dev.rttDSFormats.lookup cfg.stencilFormat = none
          · have hred : RenderToTexture dev true cfg fb = (RTTOutcome.nilCanvas, false) := by
              unfold RenderToTexture
              rw [if_neg hvalid, if_neg (by rw [h]; exact hvalid), if_neg h2, if_neg h3, if_pos h4]
            rw [hred]
            exact iff_of_true rfl (Or.inr (Or.inr (Or.inr (Or.inl h4))))
          · have hred : RenderToTexture dev true cfg fb
                = (match fb with
                   | FBStatus.unsupported => (RTTOutcome.nilCanvas, true)
                   | FBStatus.otherError => (RTTOutcome.panicFramebuffer, true)
                   | FBStatus.complete => (RTTOutcome.canvasOk, true)) := by
              unfold RenderToTexture
              rw [if_neg hvalid, if_neg (by rw [h]; exact hvalid), if_neg h2, if_neg h3, if_neg h4]
            cases fb
            · rw [hred]
              refine iff_of_false (by simp) ?_
              rintro (hc | hc | hc | hc | hc)
              · rw [h] at hc
                exact hvalid hc
              · exact h2 hc
              · exact h3 hc
              · exact h4 hc
              · exact FBStatus.noConfusion hc
            · rw [hred]
              exact iff_of_true rfl (Or.inr (Or.inr (Or.inr (Or.inr rfl))))
            · rw [hred]
              refine iff_of_false (by simp) ?_
              rintro (hc | hc | hc | hc | hc)
              · rw [h] at hc
                exact hvalid hc
              · exact h2 hc
              · exact h3 hc
              · exact h4 hc
              · exact FBStatus.noConfusion hc
  · intro hcap hc2 hc3 hc4 hfb
    subst hfb
    unfold RenderToTexture
    rw [if_neg hvalid, if_neg (by rw [hcap]; exact hvalid), if_neg hc2, if_neg hc3, if_neg hc4]
  · intro h
    unfold RenderToTexture
    rw [if_neg hvalid, if_pos h]

/-- A concrete RTT configuration requesting only an RGBA color attachment
with no destination texture. -/
def cfgColorOnly : RTTConfig := ⟨none, none, none, 1, 0, 0, ⟨0, 0, 4, 4⟩, 0⟩

/-- A concrete device lacking the framebuffer-object capability. -/
def rttDevNoFBO : RTTDevice := ⟨false, [], []⟩

/-- A concrete device with the capability and both format tables holding the
requested formats. -/
def rttDevFull : RTTDevice := ⟨true, [(1, 10)], [(2, 20)]⟩

/-- Witness for claim C5: on a device lacking the framebuffer-object
capability the call returns nil without submitting the creation operation,
and on a capable device with resolvable formats an undocumented completeness
failure panics. -/
theorem renderToTexture_nil_iff_witness :
    (RenderToTexture rttDevNoFBO true cfgColorOnly FBStatus.complete).1 = RTTOutcome.nilCanvas ∧
    (RenderToTexture rttDevNoFBO true cfgColorOnly FBStatus.complete).2 = false ∧
    (RenderToTexture rttDevFull true cfgColorOnly FBStatus.otherError).1 = RTTOutcome.panicFramebuffer := by
  refine ⟨?_, ?_, ?_⟩
  · exact (renderToTexture_nil_iff rttDevNoFBO cfgColorOnly FBStatus.complete).1.mpr (Or.inl rfl)
  · exact (renderToTexture_nil_iff rttDevNoFBO cfgColorOnly FBStatus.complete).2.2 rfl
  · exact (renderToTexture_nil_iff rttDevFull cfgColorOnly FBStatus.otherError).2.1 rfl
      (by simp [cfgColorOnly, rttDevFull]) (by simp [cfgColorOnly]) (by simp [cfgColorOnly]) rfl

/-- Claim C10: when cfg.Valid() is false, RenderToTexture panics rather than
returning nil, and the nil outcome is reachable only when the validity check
passed. -/
theorem renderToTexture_invalid_panics (dev : RTTDevice) (cfg : RTTConfig) (fb : FBStatus) :
    (RenderToTexture dev false cfg fb).1 = RTTOutcome.panicInvalidCfg ∧
    (∀ valid, (RenderToTexture dev valid cfg fb).1 = RTTOutcome.nilCanvas → valid = true) := by
  constructor
  · rfl
  · intro valid h
    cases valid
    · exact absurd h (by simp [RenderToTexture])
    · rfl

/-- Witness for claim C10: a concrete invalid configuration panics, and a
concrete nil outcome indeed arose from a call whose validity check passed. -/
theorem renderToTexture_invalid_panics_witness :
    (RenderToTexture rttDevNoFBO false cfgColorOnly FBStatus.complete).1 = RTTOutcome.panicInvalidCfg ∧
    (true : Bool) = true := by
  refine ⟨(renderToTexture_invalid_panics rttDevNoFBO cfgColorOnly FBStatus.complete).1, ?_⟩
  exact (renderToTexture_invalid_panics rttDevNoFBO cfgColorOnly FBStatus.complete).2 true rfl

/-! ## Pre-draw validation (util.PreDraw) -/

/-- Embedding of gfx.Shader as read by PreDraw: the compile error bytes and
the loaded flag. -/
structure Shader where
  error : List Nat
  loaded : Bool
deriving DecidableEq

/-- Embedding of gfx.Mesh as read by PreDraw: the loaded flag, whether it
has changed since loading, and its vertices (opaque values; only the length
is inspected). -/
structure Mesh where
  loaded : Bool
  hasChanged : Bool
  vertices : List Nat
deriving DecidableEq

/-- Embedding of gfx.Texture as read by PreDraw: the loaded flag and the
optional source image (opaque id). -/
structure Texture where
  loaded : Bool
  source : Option Nat
deriving DecidableEq

/-- Embedding of gfx.Object as read by PreDraw: optional state, optional
shader, meshes and textures. -/
structure Object where
  state : Option Nat
  shader : Option Shader
  meshes : List Mesh
  textures : List Texture
deriving DecidableEq

/-- The named error values of the util package pre-draw step. -/
inductive DrawErr where
  | errNilState
  | errNilShader
  | errNilSource
  | errNoVertices
  | errNoMeshes
  | errShaderError
deriving DecidableEq

/-- The loading operations PreDraw requests from the device (LoadShader,
LoadMesh, LoadTexture); each returns the value the device publishes through
the completion channel PreDraw blocks on. -/
structure LoadDev where
  loadShader : Shader → Shader
  loadMesh : Mesh → Mesh
  loadTexture : Texture → Texture

/-- The mesh loop of PreDraw: meshes already loaded and unchanged are
skipped; a mesh needing load with zero vertices aborts with ErrNoVertices;
otherwise the mesh is loaded and the loop continues. -/
def loadMeshes (dev : LoadDev) : List Mesh → Except DrawErr (List Mesh)
  | [] => Except.ok []
  | m :: ms =>
      if m.loaded = true ∧ m.hasChanged = false then
        (loadMeshes dev ms).map (fun rest => m :: rest)
      else if m.vertices.length = 0 then Except.error DrawErr.errNoVertices
      else (loadMeshes dev ms).map (fun rest => dev.loadMesh m :: rest)

/-- The texture loop of PreDraw: textures already loaded are skipped; a
texture needing load with a nil source aborts with ErrNilSource; otherwise
the texture is loaded and the loop continues. -/
def loadTextures (dev : LoadDev) : List Texture → Except DrawErr (List Texture)
  | [] => Except.ok []
  | t :: ts =>
      if t.loaded = true then
        (loadTextures dev ts).map (fun rest => t :: rest)
      else if t.source = none then Except.error DrawErr.errNilSource
      else (loadTextures dev ts).map (fun rest => dev.loadTexture t :: rest)

/-- The result of PreDraw: the draw flag, the optional named error, and the
object as mutated by the loads. -/
structure PreDrawResult where
  draw : Bool
  err : Option DrawErr
  obj : Object
deriving DecidableEq

/-- Embedding of util.PreDraw: empty rectangles are a silent skip; then nil
state, nil shader, a shader compile error, and an empty mesh list are
rejected in that order with the corresponding named error; then the shader
is loaded if needed, the meshes are loaded (zero-vertex meshes needing load
abort), the textures are loaded (nil-source textures needing load abort),
and finally the now-loaded shader is re-checked for a compile error. The
implicit o.Bounds() call mutates only a cached bound and is not observable
here. -/
def PreDraw (dev : LoadDev) (rect : Rect) (o : Object) : PreDrawResult :=
  if rect.empty then ⟨false, none, o⟩
  else
    match o.state with
    | none => ⟨false, some DrawErr.errNilState, o⟩
    | some _ =>
      match o.shader with
      | none => ⟨false, some DrawErr.errNilShader, o⟩
      | some sh =>
        if sh.error.length > 0 then ⟨false, some DrawErr.errShaderError, o⟩
        else if o.meshes.length = 0 then ⟨false, some DrawErr.errNoMeshes, o⟩
        else
          let sh1 := if sh.loaded = false then dev.loadShader sh else sh
          match loadMeshes dev o.meshes with
          | Except.error e => ⟨false, some e, { o with shader := some sh1 }⟩
          | Except.ok ms =>
            match loadTextures dev o.textures with
            | Except.error e => ⟨false, some e, { o with shader := some sh1, meshes := ms }⟩
            | Except.ok ts =>
              let o2 : Object := { o with shader := some sh1, meshes := ms, textures := ts }
              if sh1.error.length > 0 then ⟨false, some DrawErr.errShaderError, o2⟩
              else ⟨true, none, o2⟩

lemma loadMeshes_skip_all (dev : LoadDev) (l : List Mesh)
    (h : ∀ m ∈ l, m.loaded = true ∧ m.hasChanged = false) :
    loadMeshes dev l = Except.ok l := by
  induction l with
  | nil => rfl
  | cons m ms ih =>
      have hm := h m (List.mem_cons_self m ms)
      have ih2 := ih (fun m2 hm2 => h m2 (List.mem_cons_of_mem m hm2))
      simp [loadMeshes, hm.1, hm.2, ih2, Except.map]

lemma loadMeshes_noVertices (dev : LoadDev) (pre : List Mesh) (m : Mesh) (post : List Mesh)
    (hpre : ∀ m2 ∈ pre, m2.loaded = true ∧ m2.hasChanged = false)
    (hm : ¬ (m.loaded = true ∧ m.hasChanged = false)) (hv : m.vertices = []) :
    loadMeshes dev (pre ++ m :: post) = Except.error DrawErr.errNoVertices := by
  induction pre with
  | nil => simp [loadMeshes, hm, hv]
  | cons p ps ih =>
      have hp := hpre p (List.mem_cons_self p ps)
      have ih2 := ih (fun m2 h2 => hpre m2 (List.mem_cons_of_mem p h2))
      simp [loadMeshes, hp.1, hp.2, ih2, Except.map]

lemma loadTextures_nilSource (dev : LoadDev) (pre : List Texture) (t : Texture) (post : List Texture)
    (hpre : ∀ t2 ∈ pre, t2.loaded = true) (hl : t.loaded = false) (hs : t.source = none) :
    loadTextures dev (pre ++ t :: post) = Except.error DrawErr.errNilSource := by
  induction pre with
  | nil => simp [loadTextures, hl, hs]
  | cons p ps ih =>
      have hp := hpre p (List.mem_cons_self p ps)
      have ih2 := ih (fun t2 h2 => hpre t2 (List.mem_cons_of_mem p h2))
      simp [loadTextures, hp, ih2, Except.map]

/-- Claim C6: for a non-empty rectangle, each single-fault object yields the
corresponding named error together with draw = false: nil state gives
ErrNilState; nil shader gives ErrNilShader; a shader compile error gives
ErrShaderError; an object with no meshes gives ErrNoMeshes; a zero-vertex
mesh needing load (after any number of already-loaded unchanged meshes)
gives ErrNoVertices; a not-yet-loaded texture with a nil source (after any
number of already-loaded textures, with all meshes loaded and unchanged)
gives ErrNilSource. In every case draw = false, so the offending draw is
skipped without aborting the frame. -/
theorem preDraw_named_errors (dev : LoadDev) (rect : Rect) (hrect : rect.empty = false) :
    (∀ o : Object, o.state = none →
      (PreDraw dev rect o).draw = false ∧ (PreDraw dev rect o).err = some DrawErr.errNilState) ∧
    (∀ o : Object, o.state ≠ none → o.shader = none →
      (PreDraw dev rect o).draw = false ∧ (PreDraw dev rect o).err = some DrawErr.errNilShader) ∧
    (∀ (o : Object) (sh : Shader), o.state ≠ none → o.shader = some sh → sh.error ≠ [] →
      (PreDraw dev rect o).draw = false ∧ (PreDraw dev rect o).err = some DrawErr.errShaderError) ∧
    (∀ (o : Object) (sh : Shader), o.state ≠ none → o.shader = some sh → sh.error = [] →
      o.meshes = [] →
      (PreDraw dev rect o).draw = false ∧ (PreDraw dev rect o).err = some DrawErr.errNoMeshes) ∧
    (∀ (o : Object) (sh : Shader) (pre : List Mesh) (m : Mesh) (post : List Mesh),
      o.state ≠ none → o.shader = some sh → sh.error = [] →
      o.meshes = pre ++ m :: post →
      (∀ m2 ∈ pre, m2.loaded = true ∧ m2.hasChanged = false) →
      ¬ (m.loaded = true ∧ m.hasChanged = false) → m.vertices = [] →
      (PreDraw dev rect o).draw = false ∧ (PreDraw dev rect o).err = some DrawErr.errNoVertices) ∧
    (∀ (o : Object) (sh : Shader) (pre : List Texture) (t : Texture) (post : List Texture),
      o.state ≠ none → o.shader = some sh → sh.error = [] →
      (∀ m2 ∈ o.meshes, m2.loaded = true ∧ m2.hasChanged = false) → o.meshes ≠ [] →
      o.textures = pre ++ t :: post →
      (∀ t2 ∈ pre, t2.loaded = true) → t.loaded = false → t.source = none →
      (PreDraw dev rect o).draw = false ∧ (PreDraw dev rect o).err = some DrawErr.errNilSource) := by
  refine ⟨?_, ?_, ?_, ?_, ?_, ?_⟩
  · intro o hstate
    simp [PreDraw, hrect, hstate]
  · intro o hstate hsh
    obtain ⟨s, hs⟩ := Option.ne_none_iff_exists'.mp hstate
    simp [PreDraw, hrect, hs, hsh]
  · intro o sh hstate hsh herr
    obtain ⟨s, hs⟩ := Option.ne_none_iff_exists'.mp hstate
    have hlen : sh.error.length > 0 := List.length_pos.mpr herr
    simp [PreDraw, hrect, hs, hsh, hlen]
  · intro o sh hstate hsh herr hmesh
    obtain ⟨s, hs⟩ := Option.ne_none_iff_exists'.mp hstate
    simp [PreDraw, hrect, hs, hsh, herr, hmesh]
  · intro o sh pre m post hstate hsh herr hmesh hpre hm hv
    obtain ⟨s, hs⟩ := Option.ne_none_iff_exists'.mp hstate
    have hload := loadMeshes_noVertices dev pre m post hpre hm hv
    simp [PreDraw, hrect, hs, hsh, herr, hmesh, hload]
  · intro o sh pre t post hstate hsh herr hmeshes hne htex hpre hl hsrc
    obtain ⟨s, hs⟩ := Option.ne_none_iff_exists'.mp hstate
    have hload := loadMeshes_skip_all dev o.meshes hmeshes
    have htl := loadTextures_nilSource dev pre t post hpre hl hsrc
    simp [PreDraw, hrect, hs, hsh, herr, hne, hload, htex, htl]

/-- An identity loading device for the witnesses. -/
def devL : LoadDev := ⟨fun sh => sh, fun m => m, fun t => t⟩

/-- A concrete non-empty rectangle. -/
def rect1 : Rect := ⟨0, 0, 1, 1⟩

/-- A loaded shader with no compile error. -/
def sh0 : Shader := ⟨[], true⟩

/-- A shader with a compile error. -/
def shBad : Shader := ⟨[1], true⟩

/-- A mesh needing load that has no vertices. -/
def m0 : Mesh := ⟨false, false, []⟩

/-- A loaded, unchanged mesh with one vertex. -/
def mOK : Mesh := ⟨true, false, [1]⟩

/-- A not-yet-loaded texture with a nil source. -/
def t0 : Texture := ⟨false, none⟩

/-- Witness objects: one per single-fault scenario. -/
def o1 : Object := ⟨none, none, [], []⟩

/-- Object with state but nil shader. -/
def o2 : Object := ⟨some 1, none, [], []⟩

/-- Object whose shader has a compile error. -/
def o3 : Object := ⟨some 1, some shBad, [], []⟩

/-- Valid state and shader but no meshes. -/
def o4 : Object := ⟨some 1, some sh0, [], []⟩

/-- Valid state and shader with a zero-vertex mesh needing load. -/
def o5 : Object := ⟨some 1, some sh0, [m0], []⟩

/-- Valid state, shader and meshes with a nil-source texture needing load. -/
def o6 : Object := ⟨some 1, some sh0, [mOK], [t0]⟩

/-- Witness for claim C6: the six single-fault scenarios instantiated at
concrete objects. -/
theorem preDraw_named_errors_witness :
    (PreDraw devL rect1 o1).err = some DrawErr.errNilState ∧
    (PreDraw devL rect1 o2).err = some DrawErr.errNilShader ∧
    (PreDraw devL rect1 o3).err = some DrawErr.errShaderError ∧
    (PreDraw devL rect1 o4).err = some DrawErr.errNoMeshes ∧
    (PreDraw devL rect1 o5).err = some DrawErr.errNoVertices ∧
    (PreDraw devL rect1 o6).err = some DrawErr.errNilSource := by
  have T := preDraw_named_errors devL rect1 (by decide)
  refine ⟨(T.1 o1 rfl).2, (T.2.1 o2 (by decide) rfl).2,
    (T.2.2.1 o3 shBad (by decide) rfl (by decide)).2,
    (T.2.2.2.1 o4 sh0 (by decide) rfl rfl rfl).2, ?_, ?_⟩
  · exact (T.2.2.2.2.1 o5 sh0 [] m0 [] (by decide) rfl rfl rfl (by simp) (by decide) rfl).2
  · refine (T.2.2.2.2.2 o6 sh0 [] t0 [] (by decide) rfl rfl ?_ (by decide) rfl (by simp) rfl rfl).2
    intro m2 hm2
    rw [show o6.meshes = [mOK] from rfl, List.mem_singleton] at hm2
    subst hm2
    exact ⟨rfl, rfl⟩

/-! ## Window property reconciliation (glfwWindow.useProps, window package) -/

/-- Embedding of window.Props as read by useProps: the title is opaque; the
cursor and window coordinates are integers (the -1 sentinel values of the
source are kept as -1). -/
structure WProps where
  title : Nat
  width : Int
  height : Int
  x : Int
  y : Int
  cursorX : Int
  cursorY : Int
  visible : Bool
  minimized : Bool
  vsync : Bool
  cursorGrabbed : Bool
  fullscreen : Bool
deriving DecidableEq

/-- The native windowing calls useProps can issue. -/
inductive WinCall where
  | setTitle (t : Nat)
  | setSize (w h : Int)
  | setPos (x y : Int)
  | setCursorPos (x y : Int)
  | showWin
  | hideWin
  | iconify
  | restore
  | swapInterval (i : Int)
  | setInputModeCursorDisabled
  | setInputModeCursorNormal
deriving DecidableEq

/-- The glfwWindow state useProps touches: desired and last-applied
properties, the size snapshot taken before entering fullscreen, the cursor
delta baseline (none is the negative-infinity sentinel), the monitor video
mode, and the adaptive-vsync extension flags (either one present). -/
structure WinState where
  props : WProps
  last : WProps
  beforeFullscreen : Int × Int
  lastCursorX : Option Int
  lastCursorY : Option Int
  vmWidth : Int
  vmHeight : Int
  extSwapTear : Bool
deriving DecidableEq


/-- The window-size block of useProps: when forced or the size differs from
the last-applied one, snapshot it as the pre-fullscreen size (when not in
fullscreen), record it in last, and issue the native SetSize call. -/
def usePropsSize (force : Bool) (wc : WinState × List WinCall) : WinState × List WinCall :=
  let w := wc.1
  let width := w.props.width
  let height := w.props.height
  if force = true ∨ width ≠ w.last.width ∨ height ≠ w.last.height then
    let wA : WinState :=
      if w.props.fullscreen = false then { w with beforeFullscreen := (width, height) } else w
    let wB : WinState := { wA with last := { wA.last with width := width, height := height } }
    (wB, wc.2 ++ [WinCall.setSize width height])
  else wc

/-- The window-position block of useProps: applied only outside fullscreen;
the sentinel (-1, -1) centers the window on the monitor video mode. -/
def usePropsPos (force : Bool) (wc : WinState × List WinCall) : WinState × List WinCall :=
  let w := wc.1
  let x := w.props.x
  let y := w.props.y
  if (force = true ∨ x ≠ w.last.x ∨ y ≠ w.last.y) ∧ w.props.fullscreen = false then
    let wB : WinState := { w with last := { w.last with x := x, y := y } }
    let xy : Int × Int :=
      if x = -1 ∧ y = -1 then
        (w.vmWidth / 2 - w.props.width / 2, w.vmHeight / 2 - w.props.height / 2)
      else (x, y)
    (wB, wc.2 ++ [WinCall.setPos xy.1 xy.2])
  else wc

/-- The cursor-position block of useProps: the last-applied value is always
recorded but the native call is skipped for the (-1, -1) sentinel. -/
def usePropsCursor (force : Bool) (wc : WinState × List WinCall) : WinState × List WinCall :=
  let w := wc.1
  let cx := w.props.cursorX
  let cy := w.props.cursorY
  if force = true ∨ cx ≠ w.last.cursorX ∨ cy ≠ w.last.cursorY then
    let wB : WinState := { w with last := { w.last with cursorX := cx, cursorY := cy } }
    (wB, wc.2 ++ (if cx ≠ -1 ∧ cy ≠ -1 then [WinCall.setCursorPos cx cy] else []))
  else wc

/-- The visibility block of useProps. -/
def usePropsVisible (force : Bool) (wc : WinState × List WinCall) : WinState × List WinCall :=
  let w := wc.1
  let visible := w.props.visible
  if force = true ∨ w.last.visible ≠ visible then
    let wB : WinState := { w with last := { w.last with visible := visible } }
    (wB, wc.2 ++ [if visible then WinCall.showWin else WinCall.hideWin])
  else wc

/-- The minimized block of useProps. -/
def usePropsMinimized (force : Bool) (wc : WinState × List WinCall) : WinState × List WinCall :=
  let w := wc.1
  let minimized := w.props.minimized
  if force = true ∨ w.last.minimized ≠ minimized then
    let wB : WinState := { w with last := { w.last with minimized := minimized } }
    (wB, wc.2 ++ [if minimized then WinCall.iconify else WinCall.restore])
  else wc

/-- The vertical-sync block of useProps: adaptive sync (interval -1) when an
adaptive-sync extension is present, else standard sync (1), else off (0). -/
def usePropsVSync (force : Bool) (wc : WinState × List WinCall) : WinState × List WinCall :=
  let w := wc.1
  let vsync := w.props.vsync
  if force = true ∨ w.last.vsync ≠ vsync then
    let wB : WinState := { w with last := { w.last with vsync := vsync } }
    let interval : Int := if vsync then (if w.extSwapTear then -1 else 1) else 0
    (wB, wc.2 ++ [WinCall.swapInterval interval])
  else wc

/-- The cursor-mode block of useProps: toggling the grab resets the cursor
delta baseline to the sentinel and sets the native input mode. -/
def usePropsGrab (force : Bool) (wc : WinState × List WinCall) : WinState × List WinCall :=
  let w := wc.1
  let grabbed := w.props.cursorGrabbed
  if force = true ∨ w.last.cursorGrabbed ≠ grabbed then
    let wA : WinState := { w with last := { w.last with cursorGrabbed := grabbed } }
    let wB : WinState := { wA with lastCursorX := none, lastCursorY := none }
    (wB, wc.2 ++ [if grabbed then WinCall.setInputModeCursorDisabled else WinCall.setInputModeCursorNormal])
  else wc

/-- Embedding of glfwWindow.useProps: store the new props; check the
fullscreen toggle first and, when toggling, update last.fullscreen, restore
the pre-fullscreen size when leaving fullscreen, signal a rebuild and return
immediately with no native call; otherwise update the title unconditionally
and reconcile size, position, cursor position, visibility, minimized state,
vsync and cursor grabbing in that order, each only when forced or differing
from the last-applied value. Returns the new state, the native calls issued
in order, and whether a rebuild was signalled. -/
def useProps (w0 : WinState) (p : WProps) (force : Bool) : WinState × List WinCall × Bool :=
  let w : WinState := { w0 with props := p }
  if w.props.fullscreen ≠ w.last.fullscreen then
    let w1 : WinState := { w with last := { w.last with fullscreen := w.props.fullscreen } }
    let w2 : WinState :=
      if w.props.fullscreen = false then
        { w1 with props := { w1.props with width := w1.beforeFullscreen.1, height := w1.beforeFullscreen.2 } }
      else w1
    (w2, [], true)
  else
    let wc :=
      usePropsGrab force (usePropsVSync force (usePropsMinimized force (usePropsVisible force
        (usePropsCursor force (usePropsPos force (usePropsSize force
          (w, [WinCall.setTitle w.props.title])))))))
    (wc.1, wc.2, false)

/-- Claim C9: whenever the requested fullscreen value differs from the
last-applied one, the useProps pass signals a rebuild and returns
immediately with no native call at all: no title, size, position, cursor
position, visibility, minimized, vsync or cursor-mode call is issued. -/
theorem useProps_fullscreen_toggle_only_rebuild (w : WinState) (p : WProps) (force : Bool)
    (h : p.fullscreen ≠ w.last.fullscreen) :
    (useProps w p force).2.1 = [] ∧ (useProps w p force).2.2 = true := by
  unfold useProps
  rw [if_pos h]
  exact ⟨rfl, rfl⟩

/-- A concrete windowed-mode window state for the witness. -/
def winState0 : WinState :=
  { props := ⟨0, 800, 600, 10, 10, -1, -1, true, false, true, false, false⟩,
    last := ⟨0, 800, 600, 10, 10, -1, -1, true, false, true, false, false⟩,
    beforeFullscreen := (800, 600), lastCursorX := none, lastCursorY := none,
    vmWidth := 1920, vmHeight := 1080, extSwapTear := false }

/-- A property request toggling fullscreen on. -/
def propsFS : WProps := ⟨0, 800, 600, 10, 10, -1, -1, true, false, true, false, true⟩

/-- Witness for claim C9: toggling fullscreen on a concrete windowed window
issues no native call and signals the rebuild. -/
theorem useProps_fullscreen_toggle_only_rebuild_witness :
    (useProps winState0 propsFS false).2.1 = [] ∧ (useProps winState0 propsFS false).2.2 = true :=
  useProps_fullscreen_toggle_only_rebuild winState0 propsFS false (by decide)

/-! ## Occlusion query tracker lemmas (device.queryYield and device.queryWait) -/

lemma lastIdxAux_not_mem (q : Nat) (l : List Nat) (hq : q ∉ l) :
    ∀ i b, lastIdxAux q l i b = b := by
  induction l with
  | nil => intro i b; rfl
  | cons x xs ih =>
      intro i b
      have hx : x ≠ q := fun h => hq (h ▸ List.mem_cons_self x xs)
      have hxs : q ∉ xs := fun h => hq (List.mem_cons_of_mem x h)
      simp [lastIdxAux, hx, ih hxs]

lemma lastIdxAux_shift (q : Nat) (l : List Nat) :
    ∀ i b, lastIdxAux q l (i + 1) (b + 1) = lastIdxAux q l i b + 1 := by
  induction l with
  | nil => intro i b; rfl
  | cons x xs ih =>
      intro i b
      by_cases hx : x = q
      · simp [lastIdxAux, hx, ih]
      · simp [lastIdxAux, hx, ih]

lemma lastIdxAux_mem_shift (q : Nat) (l : List Nat) (hq : q ∈ l) :
    ∀ i b b', lastIdxAux q l (i + 1) b = lastIdxAux q l i b' + 1 := by
  induction l with
  | nil => cases hq
  | cons x xs ih =>
      intro i b b'
      by_cases hx : x = q
      · by_cases hxs : q ∈ xs
        · simp only [lastIdxAux, hx, if_pos rfl]
          exact lastIdxAux_shift q xs (i + 1) i
        · simp [lastIdxAux, hx, lastIdxAux_not_mem q xs hxs]
      · have hxs : q ∈ xs := by
          rcases List.mem_cons.mp hq with h | h
          · exact absurd h.symm hx
          · exact h
        simp only [lastIdxAux, hx, if_neg hx]
        exact ih hxs (i + 1) b b'

lemma removeLastOcc_cons_head (a : Nat) (tl : List Nat) (ha : a ∉ tl) :
    removeLastOcc (a :: tl) a = tl := by
  unfold removeLastOcc
  have h0 : lastIdxAux a (a :: tl) 0 0 = 0 := by
    simp [lastIdxAux, lastIdxAux_not_mem a tl ha]
  rw [h0]
  rfl

lemma removeLastOcc_cons_ne (a q : Nat) (tl : List Nat) (hq : q ∈ tl) (hne : q ≠ a) :
    removeLastOcc (a :: tl) q = a :: removeLastOcc tl q := by
  unfold removeLastOcc
  have h0 : lastIdxAux q (a :: tl) 0 0 = lastIdxAux q tl 0 0 + 1 := by
    have hx : a ≠ q := fun h => hne h.symm
    simp only [lastIdxAux, hx, if_neg hx]
    exact lastIdxAux_mem_shift q tl hq 0 0 0
  rw [h0]
  rfl

lemma removeLastOcc_eq_erase (l : List Nat) (q : Nat) (hq : q ∈ l) (hnd : l.Nodup) :
    removeLastOcc l q = l.erase q := by
  induction l with
  | nil => cases hq
  | cons x xs ih =>
      by_cases hx : x = q
      · subst hx
        have hnotin : x ∉ xs := (List.nodup_cons.mp hnd).1
        rw [removeLastOcc_cons_head x xs hnotin, List.erase_cons_head]
      · have hxs : q ∈ xs := by
          rcases List.mem_cons.mp hq with h | h
          · exact absurd h.symm hx
          · exact h
        have hnd2 : xs.Nodup := (List.nodup_cons.mp hnd).2
        rw [removeLastOcc_cons_ne x q xs hxs (fun h => hx h.symm),
          ih hxs hnd2, List.erase_cons_tail]
        simp [hx]

lemma removeEach_cons_not_mem (a : Nat) (rs : List Nat) :
    ∀ tl : List Nat, (∀ q ∈ rs, q ∈ tl) → tl.Nodup → a ∉ tl → rs.Nodup →
      removeEach (a :: tl) rs = a :: removeEach tl rs := by
  induction rs with
  | nil =>
      intro tl _ _ _ _
      rfl
  | cons r rs' ih =>
      intro tl hrs hnd ha hndrs
      have hr : r ∈ tl := hrs r (List.mem_cons_self r rs')
      have hra : r ≠ a := fun h => ha (h ▸ hr)
      have herase : removeLastOcc tl r = tl.erase r := removeLastOcc_eq_erase tl r hr hnd
      have hsub : ∀ q ∈ rs', q ∈ tl.erase r := by
        intro q hq2
        have hqr : q ≠ r := by
          intro h
          subst h
          exact (List.nodup_cons.mp hndrs).1 hq2
        exact (List.mem_erase_of_ne hqr).mpr (hrs q (List.mem_cons_of_mem r hq2))
      have hmain := ih (tl.erase r) hsub (hnd.erase r)
        (fun h => ha (List.mem_of_mem_erase h)) (List.nodup_cons.mp hndrs).2
      calc removeEach (a :: tl) (r :: rs')
          = removeEach (removeLastOcc (a :: tl) r) rs' := rfl
        _ = removeEach (a :: tl.erase r) rs' := by
              rw [removeLastOcc_cons_ne a r tl hr hra, herase]
        _ = a :: removeEach (tl.erase r) rs' := hmain
        _ = a :: removeEach (removeLastOcc tl r) rs' := by rw [herase]
        _ = a :: removeEach tl (r :: rs') := rfl

lemma removeEach_filter_of_nodup (p : Nat → Bool) :
    ∀ l : List Nat, l.Nodup → removeEach l (l.filter p) = l.filter (fun q => !(p q)) := by
  intro l
  induction l with
  | nil =>
      intro _
      rfl
  | cons a tl ih =>
      intro hnd
      have ha : a ∉ tl := (List.nodup_cons.mp hnd).1
      have hnd2 : tl.Nodup := (List.nodup_cons.mp hnd).2
      by_cases hp : p a
      · have h1 : (a :: tl).filter p = a :: tl.filter p := by simp [List.filter_cons, hp]
        rw [h1]
        have h2 : removeEach (a :: tl) (a :: tl.filter p)
            = removeEach (removeLastOcc (a :: tl) a) (tl.filter p) := rfl
        rw [h2, removeLastOcc_cons_head a tl ha, ih hnd2]
        simp [List.filter_cons, hp]
      · have h1 : (a :: tl).filter p = tl.filter p := by simp [List.filter_cons, hp]
        rw [h1]
        rw [removeEach_cons_not_mem a (tl.filter p) tl
          (fun q hq => List.mem_of_mem_filter hq) hnd2 ha (hnd2.filter p)]
        rw [ih hnd2]
        simp [List.filter_cons, hp]

lemma queryYieldExec_occl (avail : Nat → Nat → Bool) (d : Dev) :
    (queryYieldExec avail d).1.occl = d.occl := by
  cases h : d.occl <;> simp [queryYieldExec, h]

lemma queryYieldExec_spec (avail : Nat → Nat → Bool) (d : Dev) (h : d.occl = true)
    (hnd : d.pending.Nodup) :
    (queryYieldExec avail d).1.pending = d.pending.filter (fun q => !(avail d.qtime q)) ∧
    (queryYieldExec avail d).1.qtime = d.qtime + 1 ∧
    (queryYieldExec avail d).2 = (d.pending.filter (fun q => !(avail d.qtime q))).length := by
  have hre := removeEach_filter_of_nodup (fun q => avail d.qtime q) d.pending hnd
  simp [queryYieldExec, h, hre]

lemma queryYieldExec_count_eq (avail : Nat → Nat → Bool) (d : Dev) (h : d.occl = true) :
    (queryYieldExec avail d).2 = (queryYieldExec avail d).1.pending.length := by
  simp [queryYieldExec, h]


/-- The yield cadence of the queryWait loop body: Gosched runs exactly at
the iterations whose index is a nonzero multiple of 16. -/
def goschedFilter : Nat → Bool := fun t => decide (t ≠ 0) && decide (t % 16 = 0)

lemma queryWaitLoopExec_gosched (avail : Nat → Nat → Bool) :
    ∀ (fuel i : Nat) (d d2 : Dev) (pc : Nat) (gs : List Nat),
      queryWaitLoopExec avail fuel i d = some (d2, pc, gs) →
      i < pc ∧ gs = (List.range' i (pc - 1 - i)).filter goschedFilter := by
  intro fuel
  induction fuel with
  | zero =>
      intro i d d2 pc gs h
      cases h
  | succ fuel ih =>
      intro i d d2 pc gs h
      rw [queryWaitLoopExec] at h
      by_cases hc : (queryYieldExec avail d).2 = 0
      · rw [if_pos hc] at h
        injection h with h
        injection h with h1 h
        injection h with h2 h3
        subst h2
        subst h3
        refine ⟨Nat.lt_succ_self i, ?_⟩
        have hz : i + 1 - 1 - i = 0 := by omega
        rw [hz]
        rfl
      · rw [if_neg hc] at h
        cases hrec : queryWaitLoopExec avail fuel (i + 1) (queryYieldExec avail d).1 with
        | none =>
            rw [hrec] at h
            cases h
        | some r =>
            obtain ⟨d2x, pcx, gsx⟩ := r
            rw [hrec] at h
            injection h with h
            injection h with h1 h
            injection h with h2 h3
            subst h2
            subst h3
            obtain ⟨hlt, hgs⟩ := ih (i + 1) (queryYieldExec avail d).1 d2x pcx gsx hrec
            refine ⟨Nat.lt_trans (Nat.lt_succ_self i) hlt, ?_⟩
            have hk : pcx - 1 - i = (pcx - 1 - (i + 1)) + 1 := by omega
            rw [hk, List.range'_succ, hgs]
            by_cases hgi : i ≠ 0 ∧ i % 16 = 0
            · have hg : goschedFilter i = true := by
                simp [goschedFilter, hgi.1, hgi.2]
              simp [hgi, List.filter_cons, hg]
            · have hg : goschedFilter i = false := by
                by_cases h0 : i = 0
                · simp [goschedFilter, h0]
                · have h16 : ¬ (i % 16 = 0) := fun hm => hgi ⟨h0, hm⟩
                  simp [goschedFilter, h0, h16]
              simp [hgi, List.filter_cons, hg]

lemma queryWaitLoopExec_final_pending (avail : Nat → Nat → Bool) :
    ∀ (fuel i : Nat) (d d2 : Dev) (pc : Nat) (gs : List Nat), d.occl = true →
      queryWaitLoopExec avail fuel i d = some (d2, pc, gs) → d2.pending = [] := by
  intro fuel
  induction fuel with
  | zero =>
      intro i d d2 pc gs _ h
      cases h
  | succ fuel ih =>
      intro i d d2 pc gs hocc h
      rw [queryWaitLoopExec] at h
      by_cases hc : (queryYieldExec avail d).2 = 0
      · rw [if_pos hc] at h
        injection h with h
        injection h with h1 h
        have hcnt := queryYieldExec_count_eq avail d hocc
        rw [hc] at hcnt
        have := List.eq_nil_of_length_eq_zero hcnt.symm
        rw [← h1]
        exact this
      · rw [if_neg hc] at h
        cases hrec : queryWaitLoopExec avail fuel (i + 1) (queryYieldExec avail d).1 with
        | none =>
            rw [hrec] at h
            cases h
        | some r =>
            obtain ⟨d2x, pcx, gsx⟩ := r
            rw [hrec] at h
            injection h with h
            injection h with h1 h
            have hocc2 : (queryYieldExec avail d).1.occl = true := by
              rw [queryYieldExec_occl avail d]
              exact hocc
            have := ih (i + 1) (queryYieldExec avail d).1 d2x pcx gsx hocc2 hrec
            rw [← h1]
            exact this

lemma queryWaitLoopExec_terminates (avail : Nat → Nat → Bool) :
    ∀ (n i : Nat) (d : Dev), d.occl = true → d.qtime = i → d.pending.Nodup →
      (∀ q ∈ d.pending, ∃ t, i ≤ t ∧ t < i + n ∧ avail t q = true) →
      ∃ r, queryWaitLoopExec avail (n + 1) i d = some r := by
  intro n
  induction n with
  | zero =>
      intro i d hocc hqt hnd hav
      have hp : d.pending = [] := by
        cases hd : d.pending with
        | nil => rfl
        | cons q qs =>
            obtain ⟨t, ht1, ht2, _⟩ := hav q (hd ▸ List.mem_cons_self q qs)
            omega
      have hc : (queryYieldExec avail d).2 = 0 := by
        simp [queryYieldExec, hocc, hp, removeEach]
      refine ⟨((queryYieldExec avail d).1, i + 1, []), ?_⟩
      rw [queryWaitLoopExec, if_pos hc]
  | succ n ih =>
      intro i d hocc hqt hnd hav
      by_cases hc : (queryYieldExec avail d).2 = 0
      · refine ⟨((queryYieldExec avail d).1, i + 1, []), ?_⟩
        rw [queryWaitLoopExec, if_pos hc]
      · obtain ⟨hpend, hqt2, _⟩ := queryYieldExec_spec avail d hocc hnd
        have hocc2 : (queryYieldExec avail d).1.occl = true := by
          rw [queryYieldExec_occl avail d]
          exact hocc
        have hqt3 : (queryYieldExec avail d).1.qtime = i + 1 := by
          rw [hqt2, hqt]
        have hnd2 : (queryYieldExec avail d).1.pending.Nodup := by
          rw [hpend]
          exact hnd.filter _
        have hav2 : ∀ q ∈ (queryYieldExec avail d).1.pending,
            ∃ t, i + 1 ≤ t ∧ t < (i + 1) + n ∧ avail t q = true := by
          intro q hq
          rw [hpend] at hq
          have hmem := List.mem_of_mem_filter hq
          have hunav : avail i q = false := by
            have := List.of_mem_filter hq
            rw [hqt] at this
            simp at this
            exact this
          obtain ⟨t, ht1, ht2, ht3⟩ := hav q hmem
          have hti : t ≠ i := by
            intro hti
            rw [hti] at ht3
            rw [ht3] at hunav
            cases hunav
          exact ⟨t, by omega, by omega, ht3⟩
        obtain ⟨⟨d2x, pcx, gsx⟩, hr⟩ := ih (i + 1) (queryYieldExec avail d).1 hocc2 hqt3 hnd2 hav2
        refine ⟨(d2x, pcx, (if i ≠ 0 ∧ i % 16 = 0 then [i] else []) ++ gsx), ?_⟩
        rw [queryWaitLoopExec, if_neg hc, hr]

/-- Claim C8 (amended): queryWait is a no-op when the occlusion-query
capability is absent; otherwise it terminates once every pending query has
been observed available (with nodup pending queries all available by poll
round T, fuel T + 2 suffices and no query remains pending); and the loop
yields its thread exactly at the iterations whose index is a nonzero
multiple of 16 — so the first yield happens only after 17 polls, and there
is no yield within the first 16 polling iterations. -/
theorem queryWait_terminates_and_yield_cadence (avail : Nat → Nat → Bool) (d : Dev) (T : Nat)
    (hocc : d.occl = true) (hqt : d.qtime = 0) (hnd : d.pending.Nodup)
    (hav : ∀ q ∈ d.pending, ∃ t, t ≤ T ∧ avail t q = true) :
    (∀ (dx : Dev) (fuel : Nat), dx.occl = false → queryWaitExec avail fuel dx = some (dx, 0, [])) ∧
    ∃ d2 pc gs, queryWaitExec avail (T + 2) d = some (d2, pc, gs) ∧
      d2.pending = [] ∧ 0 < pc ∧
      gs = (List.range (pc - 1)).filter goschedFilter := by
  constructor
  · intro dx fuel h
    simp [queryWaitExec, h]
  · have hav2 : ∀ q ∈ d.pending, ∃ t, 0 ≤ t ∧ t < 0 + (T + 1) ∧ avail t q = true := by
      intro q hq
      obtain ⟨t, ht1, ht2⟩ := hav q hq
      exact ⟨t, by omega, by omega, ht2⟩
    obtain ⟨⟨d2, pc, gs⟩, hr⟩ :=
      queryWaitLoopExec_terminates avail (T + 1) 0 d hocc hqt hnd hav2
    have hchar := queryWaitLoopExec_gosched avail (T + 2) 0 d d2 pc gs hr
    have hpend := queryWaitLoopExec_final_pending avail (T + 2) 0 d d2 pc gs hocc hr
    refine ⟨d2, pc, gs, ?_, hpend, hchar.1, ?_⟩
    · unfold queryWaitExec
      rw [hocc, if_pos rfl]
      exact hr
    · rw [hchar.2, List.range_eq_range']
      congr 1

/-- A device with one pending query, the capability present. -/
def qdevW : Dev := { dev0 with occl := true, pending := [4] }

/-- Witness for claim C8 (amended): a device without the capability is a
no-op, and the concrete one-query device with an always-available oracle
terminates. -/
theorem queryWait_terminates_witness :
    queryWaitExec availAll 5 dev0 = some (dev0, 0, []) ∧
    queryWaitExec availAll 2 qdevW ≠ none := by
  have T := queryWait_terminates_and_yield_cadence availAll qdevW 0 rfl rfl
    (by simp [qdevW, dev0]) (fun q _ => ⟨0, Nat.le_refl 0, rfl⟩)
  refine ⟨T.1 dev0 5 rfl, ?_⟩
  obtain ⟨d2, pc, gs, h1, _⟩ := T.2
  simp [h1]

/-- The cadence the claim asserts: whenever 16 consecutive polling
iterations all run their loop body (queries remained pending, that is the
window ends before the final poll), at least one of them yields. -/
def yieldsOncePer16 (pc : Nat) (gs : List Nat) : Prop :=
  ∀ k, k + 16 ≤ pc - 1 → ∃ i, i ∈ gs ∧ k ≤ i ∧ i < k + 16

/-- An availability oracle whose query becomes available only at poll round
20. -/
def availAt20 : Nat → Nat → Bool := fun t _ => decide (20 ≤ t)

/-- A device with one pending query that stays unavailable for 20 rounds. -/
def qdev20 : Dev := { dev0 with occl := true, pending := [1] }

/-- Claim C8 counterexample: on the concrete device whose single query
becomes available at round 20, queryWait performs 21 polls and yields only
at iteration 16, so the first 16 polling iterations (indices 0 through 15,
all with the query still pending) contain no yield: the claimed
at-least-once-per-16-iterations cadence is false. -/
theorem queryWait_first_window_no_yield_cex :
    (queryWaitExec availAt20 100 qdev20).map (fun r => (r.2.1, r.2.2)) = some (21, [16]) ∧
    ¬ yieldsOncePer16 21 [16] := by
  constructor
  · rfl
  · intro h
    obtain ⟨i, hi, hk, hlt⟩ := h 0 (by omega)
    rw [List.mem_singleton] at hi
    omega
